import Mathlib

/-!
Shallow embedding of `src/python/contracts/addressLookup.py` (SmartPy, Tezos).

The file defines the storage model and every entrypoint / on-chain view of the
`AddressLookup` contract (the Registry) and the two view-calling entrypoints of
the `LookupAddress` contract (the Consumer), and proves the claims about them.

Modelling conventions:
* `sp.TBigMap` is modelled by an association list wrapped in a structure
  (`BigMap`); `get` returns the first binding of a key, `set` prepends a
  binding (so `get` after `set` has the usual overwrite semantics), and
  `contains` is definedness of `get`, matching Michelson `GET`/`UPDATE`/`MEM`
  observable behaviour.
* `sp.TAddress` is modelled by `String`, `sp.TNat` by `Nat`.
* The ambient call context (`sp.sender` = immediate caller, `sp.source` =
  transaction originator) is reified as an explicit `Ctx` record passed to
  every operation that reads it.
* A failing operation is an `Except Err` error; the surrounding chain runtime
  discards all effects of a failed atomic unit, so an entrypoint is a function
  `State → Ctx → Except Err State`: on `.error` the pre-state is the state
  that persists.
* Subscripting a big map at a missing key (`self.data.m[k]` in SmartPy)
  aborts the transaction with a runtime missing-key failure before any
  surrounding `sp.verify` message is reached; this is modelled by
  `Err.MissingKey`.
* On-chain views (`@sp.onchain_view`) cannot write storage, so they are
  functions out of `State` that return only a result; state preservation is
  structural.
-/

namespace AddressLookup

/-- Model of `sp.TAddress`: an opaque actor identifier. -/
abbrev Addr := String

/-- Failure tags. `REREG`, `UNKNOWN`, `ID_NEQ_SOURCE`, `ID_UNKNOWN`,
`ID_NEQ_ADDR` are the literal `sp.verify` messages of the contract;
`MissingKey` is the runtime failure of subscripting a big map at an absent
key; `ArgType` is the decode failure of calling a view with an argument of
the wrong type; `ViewNone` is the failure of `.open_some()` on a view call
that did not produce a value. -/
inductive Err
  | REREG
  | UNKNOWN
  | ID_NEQ_SOURCE
  | ID_UNKNOWN
  | ID_NEQ_ADDR
  | MissingKey
  | ArgType
  | ViewNone
  deriving DecidableEq, Repr

instance {ε α : Type} [DecidableEq ε] [DecidableEq α] :
    DecidableEq (Except ε α) := fun x y =>
  match x, y with
  | .error e, .error e' => decidable_of_iff (e = e') (by simp)
  | .ok a, .ok a' => decidable_of_iff (a = a') (by simp)
  | .error _, .ok _ => .isFalse (by simp)
  | .ok _, .error _ => .isFalse (by simp)

/-- First-match lookup in an association list. -/
def lookupList [DecidableEq K] : List (K × V) → K → Option V
  | [], _ => none
  | p :: m, k => if k = p.1 then some p.2 else lookupList m k

/-- Model of `sp.TBigMap K V`: an association list of bindings, observed
through first-match lookup. -/
structure BigMap (K V : Type) where
  entries : List (K × V)
  deriving DecidableEq, Repr

namespace BigMap

variable {K V : Type} [DecidableEq K]

/-- `m[k]` as a total function: the current binding of `k`, if any. -/
def get (m : BigMap K V) (k : K) : Option V :=
  lookupList m.entries k

/-- `m.contains(k)` of SmartPy / `MEM` of Michelson. -/
def contains (m : BigMap K V) (k : K) : Bool :=
  (m.get k).isSome

/-- `m[k] = v` of SmartPy / `UPDATE` of Michelson: bind `k` to `v`,
shadowing any previous binding. -/
def set (m : BigMap K V) (k : K) (v : V) : BigMap K V :=
  ⟨(k, v) :: m.entries⟩

@[simp] theorem get_set_self (m : BigMap K V) (k : K) (v : V) :
    (m.set k v).get k = some v := by
  simp [get, set, lookupList]

theorem get_set_ne (m : BigMap K V) (k k' : K) (v : V) (h : k' ≠ k) :
    (m.set k v).get k' = m.get k' := by
  simp [get, set, lookupList, h]

theorem contains_iff_get_isSome (m : BigMap K V) (k : K) :
    m.contains k = true ↔ (m.get k).isSome := by
  simp [contains]

theorem contains_eq_false_iff (m : BigMap K V) (k : K) :
    m.contains k = false ↔ m.get k = none := by
  cases h : m.get k <;> simp [contains, h]

theorem get_of_contains (m : BigMap K V) (k : K) (h : m.contains k = true) :
    ∃ v, m.get k = some v := by
  cases hg : m.get k with
  | none => rw [contains, hg] at h; simp at h
  | some v => exact ⟨v, rfl⟩

theorem contains_set_ne (m : BigMap K V) (k k' : K) (v : V) (h : k' ≠ k) :
    (m.set k v).contains k' = m.contains k' := by
  simp [contains, get_set_ne _ _ _ _ h]

theorem contains_of_get (m : BigMap K V) (k : K) (v : V)
    (h : m.get k = some v) : m.contains k = true := by
  simp [contains, h]

end BigMap

/-- The Registry storage record: `addr2id`, `id2addr`, `counter`
(`init_type` of `AddressLookup.__init__`). -/
structure State where
  addr2id : BigMap Addr Nat
  id2addr : BigMap Nat Addr
  counter : Nat
  deriving DecidableEq, Repr

/-- The ambient call context: `sp.sender` is the immediate caller of the
current entrypoint, `sp.source` the originator of the whole transaction. -/
structure Ctx where
  sender : Addr
  source : Addr
  deriving DecidableEq, Repr

/-- View `has_addr` (`view_has_addr`): membership of an explicit address in
`addr2id`. -/
def view_has_addr (param : Addr) (st : State) : Bool :=
  st.addr2id.contains param

/-- View `has_source` (`view_has_source`): membership of `sp.source` — the
transaction originator — in `addr2id`. -/
def view_has_source (st : State) (ctx : Ctx) : Bool :=
  st.addr2id.contains ctx.source

/-- View `chk_idEqSource` (`view_verify_id_equ_source`):
`sp.verify(self.data.id2addr[id] == sp.source, message="ID_NEQ_SOURCE")`.
The subscript `id2addr[id]` is evaluated first, so an absent id aborts with
the runtime missing-key failure, not with the verify message. -/
def view_verify_id_equ_source (id : Nat) (st : State) (ctx : Ctx) :
    Except Err Unit :=
  match st.id2addr.get id with
  | none => .error .MissingKey
  | some a => if a = ctx.source then .ok () else .error .ID_NEQ_SOURCE

/-- View `chk_idEqAddr` (`view_verify_id_equ_addr`): first
`sp.verify(id2addr.contains(id), "ID_UNKNOWN")`, then
`sp.verify(id2addr[id] == addr, "ID_NEQ_ADDR")`. -/
def view_verify_id_equ_addr (id : Nat) (addr : Addr) (st : State) :
    Except Err Unit :=
  if st.id2addr.contains id then
    match st.id2addr.get id with
    | none => .error .MissingKey
    | some a => if a = addr then .ok () else .error .ID_NEQ_ADDR
  else .error .ID_UNKNOWN

/-- View `get_counter` (`view_get_counter`). -/
def view_get_counter (st : State) : Nat :=
  st.counter

/-- View `addr2id` (`view_addr2id`): `sp.verify(contains, "UNKNOWN")` then
`sp.result(addr2id[param])`. -/
def view_addr2id (param : Addr) (st : State) : Except Err Nat :=
  if st.addr2id.contains param then
    match st.addr2id.get param with
    | none => .error .MissingKey
    | some n => .ok n
  else .error .UNKNOWN

/-- View `id2addr` (`view_id2addr`): `sp.verify(contains, "UNKNOWN")` then
`sp.result(id2addr[param])`. -/
def view_id2addr (param : Nat) (st : State) : Except Err Addr :=
  if st.id2addr.contains param then
    match st.id2addr.get param with
    | none => .error .MissingKey
    | some a => .ok a
  else .error .UNKNOWN

/-- Entrypoint `register`: registers `sp.source`. Fails with `REREG` when the
originator is already a key of `addr2id`; otherwise inserts the pair at the
current counter in both maps and increments the counter. -/
def register (st : State) (ctx : Ctx) : Except Err State :=
  if st.addr2id.contains ctx.source then .error .REREG
  else .ok
    { addr2id := st.addr2id.set ctx.source st.counter
      id2addr := st.id2addr.set st.counter ctx.source
      counter := st.counter + 1 }

/-- Entrypoint `register_addr`: registers the explicit `param` address on its
behalf; the call context is never read. Fails with `REREG` when `param` is
already a key of `addr2id`. -/
def register_addr (param : Addr) (st : State) (_ctx : Ctx) : Except Err State :=
  if st.addr2id.contains param then .error .REREG
  else .ok
    { addr2id := st.addr2id.set param st.counter
      id2addr := st.id2addr.set st.counter param
      counter := st.counter + 1 }

/-- Origination constant `nulladdr` of the source file. -/
def nulladdr : Addr := "tz1Ke2h7sDdakHJQh8WX4Z372du1KChsksyU"

/-- Origination constant `burnaddr` of the source file. -/
def burnaddr : Addr := "tz1burnburnburnburnburnburnburjAYjjX"

/-- The seed storage the scenario originates `AddressLookup` with:
`addr2id = {nulladdr: 0, burnaddr: 1}`, `id2addr = {0: nulladdr, 1: burnaddr}`,
`counter = 2`. -/
def seedState : State :=
  { addr2id := ⟨[(nulladdr, 0), (burnaddr, 1)]⟩
    id2addr := ⟨[(0, nulladdr), (1, burnaddr)]⟩
    counter := 2 }

/-- The names under which `AddressLookup` publishes its on-chain views (the
`name=` arguments of the `@sp.onchain_view` decorators). This is the complete
view surface of the contract. -/
inductive ViewName
  | has_addr
  | has_source
  | chk_idEqSource
  | chk_idEqAddr
  | get_counter
  | addr2id
  | id2addr
  deriving DecidableEq, Repr

/-- Untyped view argument, as supplied by `sp.view(name, contract, arg, t=...)`
call sites. -/
inductive Arg
  | unit
  | addr (a : Addr)
  | nat (n : Nat)
  | pair (id : Nat) (addr : Addr)
  deriving DecidableEq, Repr

/-- Untyped view result. -/
inductive Ret
  | unit
  | bool (b : Bool)
  | nat (n : Nat)
  | addr (a : Addr)
  deriving DecidableEq, Repr

/-- Dispatch of a named view call on the Registry: decodes the argument to
the parameter type the view declares (a mismatch is the decode failure
`ArgType`) and runs the view's body on the current storage and call
context. -/
def callView (v : ViewName) (st : State) (ctx : Ctx) (arg : Arg) :
    Except Err Ret :=
  match v with
  | .has_addr =>
    match arg with
    | .addr a => .ok (.bool (view_has_addr a st))
    | _ => .error .ArgType
  | .has_source =>
    match arg with
    | .unit => .ok (.bool (view_has_source st ctx))
    | _ => .error .ArgType
  | .chk_idEqSource =>
    match arg with
    | .nat id => (view_verify_id_equ_source id st ctx).map fun _ => .unit
    | _ => .error .ArgType
  | .chk_idEqAddr =>
    match arg with
    | .pair id a => (view_verify_id_equ_addr id a st).map fun _ => .unit
    | _ => .error .ArgType
  | .get_counter =>
    match arg with
    | .unit => .ok (.nat (view_get_counter st))
    | _ => .error .ArgType
  | .addr2id =>
    match arg with
    | .addr a => (view_addr2id a st).map .nat
    | _ => .error .ArgType
  | .id2addr =>
    match arg with
    | .nat id => (view_id2addr id st).map .addr
    | _ => .error .ArgType

/-- The record type `aaa_rtype` of `LookupAddress`: three address fields. -/
structure AAARec where
  a : Addr
  b : Addr
  c : Addr
  deriving DecidableEq, Repr

/-- The record type `nnn_rtype` of `LookupAddress`: three nat fields. -/
structure NNNRec where
  a : Nat
  b : Nat
  c : Nat
  deriving DecidableEq, Repr

/-- The Consumer (`LookupAddress`) storage: two local big maps and the
address of the Registry instance it queries (`id_reg`). -/
structure ConsumerState where
  id_aaa : BigMap Nat AAARec
  id_nnn : BigMap Nat NNNRec
  id_reg : Addr
  deriving DecidableEq, Repr

/-- Entrypoint `lui_store_aaa` of `LookupAddress`: resolves `id` through the
Registry's `id2addr` view (`sp.view(..., t=sp.TAddress).open_some()`), then
stores the resolved address in all three fields of `id_aaa[i]`. The Registry
state is passed through unchanged: an on-chain view cannot mutate it. -/
def lui_store_aaa (i id : Nat) (reg : State) (cst : ConsumerState)
    (ctx : Ctx) : Except Err (State × ConsumerState) :=
  match callView .id2addr reg ctx (.nat id) with
  | .ok (.addr addr) =>
      .ok (reg, { cst with id_aaa := cst.id_aaa.set i ⟨addr, addr, addr⟩ })
  | _ => .error .ViewNone

/-- Entrypoint `lua_store_nnn` of `LookupAddress`: resolves `addr` through
the Registry's `addr2id` view (`sp.view(..., t=sp.TNat).open_some()`), then
stores the resolved id in all three fields of `id_nnn[i]`. -/
def lua_store_nnn (i : Nat) (addr : Addr) (reg : State) (cst : ConsumerState)
    (ctx : Ctx) : Except Err (State × ConsumerState) :=
  match callView .addr2id reg ctx (.addr addr) with
  | .ok (.nat id) =>
      .ok (reg, { cst with id_nnn := cst.id_nnn.set i ⟨id, id, id⟩ })
  | _ => .error .ViewNone

/-- A mutating call on the Registry: either `register()` issued from some
call context, or `register_addr(a)` issued from some call context. -/
inductive Op
  | reg (ctx : Ctx)
  | regAddr (a : Addr) (ctx : Ctx)
  deriving DecidableEq, Repr

/-- Run one mutating call. -/
def runOp (st : State) : Op → Except Err State
  | .reg ctx => register st ctx
  | .regAddr a ctx => register_addr a st ctx

/-- Run a sequence of mutating calls; the whole sequence succeeds only when
every call does (a failed call would revert, so reachable states are those
produced by all-successful sequences). -/
def runOps (st : State) : List Op → Except Err State
  | [] => .ok st
  | op :: ops =>
    match runOp st op with
    | .ok st' => runOps st' ops
    | .error e => .error e

/-- Register a list of explicit addresses in order through `register_addr`
(the context is irrelevant to `register_addr`). -/
def registerList (ctx : Ctx) (st : State) : List Addr → Except Err State
  | [] => .ok st
  | a :: as =>
    match register_addr a st ctx with
    | .ok st' => registerList ctx st' as
    | .error e => .error e

/-- Invariant I1 of the spec: `(a, i)` is a binding of `addr2id` exactly when
`(i, a)` is a binding of `id2addr`. -/
def bijection (st : State) : Prop :=
  ∀ (a : Addr) (i : Nat), st.addr2id.get a = some i ↔ st.id2addr.get i = some a

/-- Counter bound (spec invariant I3): every id key of `id2addr` is strictly
below `counter`. In particular `counter` itself is not yet a key. -/
def idBound (st : State) : Prop :=
  ∀ i : Nat, st.id2addr.contains i = true → i < st.counter

/-- The inductive invariant of the Registry: bijection together with the
counter bound. -/
def Inv (st : State) : Prop :=
  bijection st ∧ idBound st

/-- Successful `register_addr` characterised: the guard was false and the
post-state is the insertion of the pair at the current counter. -/
theorem register_addr_ok_elim (a : Addr) (st : State) (ctx : Ctx) (st' : State)
    (h : register_addr a st ctx = .ok st') :
    st.addr2id.contains a = false ∧
    st' = { addr2id := st.addr2id.set a st.counter
            id2addr := st.id2addr.set st.counter a
            counter := st.counter + 1 } := by
  unfold register_addr at h
  split at h
  · exact absurd h (by simp)
  · next hc =>
    injection h with h
    exact ⟨by simpa using hc, h.symm⟩

/-- Successful `register` characterised likewise, with `sp.source` as the
inserted address. -/
theorem register_ok_elim (st : State) (ctx : Ctx) (st' : State)
    (h : register st ctx = .ok st') :
    st.addr2id.contains ctx.source = false ∧
    st' = { addr2id := st.addr2id.set ctx.source st.counter
            id2addr := st.id2addr.set st.counter ctx.source
            counter := st.counter + 1 } := by
  unfold register at h
  split at h
  · exact absurd h (by simp)
  · next hc =>
    injection h with h
    exact ⟨by simpa using hc, h.symm⟩

/-- Inserting a fresh address at the current counter preserves the
invariant. This is the shared body of both mutating entrypoints. -/
theorem inv_insert (st : State) (x : Addr)
    (hx : st.addr2id.contains x = false) (hInv : Inv st) :
    Inv { addr2id := st.addr2id.set x st.counter
          id2addr := st.id2addr.set st.counter x
          counter := st.counter + 1 } := by
  obtain ⟨hbij, hbound⟩ := hInv
  have hxnone : st.addr2id.get x = none :=
    (BigMap.contains_eq_false_iff _ _).mp hx
  have hcnone : st.id2addr.get st.counter = none := by
    cases hg : st.id2addr.get st.counter with
    | none => rfl
    | some b =>
      have := hbound st.counter (BigMap.contains_of_get _ _ _ hg)
      omega
  constructor
  · intro a i
    dsimp only
    by_cases ha : a = x
    · subst ha
      rw [BigMap.get_set_self]
      by_cases hi : i = st.counter
      · subst hi
        rw [BigMap.get_set_self]
        simp
      · rw [BigMap.get_set_ne _ _ _ _ hi]
        constructor
        · intro h
          injection h with h
          exact absurd h.symm hi
        · intro h
          have hax := (hbij a i).mpr h
          rw [hxnone] at hax
          exact absurd hax (by simp)
    · rw [BigMap.get_set_ne _ _ _ _ ha]
      by_cases hi : i = st.counter
      · subst hi
        rw [BigMap.get_set_self]
        constructor
        · intro h
          have hca := (hbij a st.counter).mp h
          rw [hcnone] at hca
          exact absurd hca (by simp)
        · intro h
          injection h with h
          exact absurd h.symm ha
      · rw [BigMap.get_set_ne _ _ _ _ hi]
        exact hbij a i
  · intro i hci
    dsimp only at hci ⊢
    by_cases hi : i = st.counter
    · omega
    · rw [BigMap.contains_set_ne _ _ _ _ hi] at hci
      have := hbound i hci
      omega

/-- `register` preserves the invariant. -/
theorem register_preserves_inv (st : State) (ctx : Ctx) (st' : State)
    (hInv : Inv st) (h : register st ctx = .ok st') : Inv st' := by
  obtain ⟨hc, rfl⟩ := register_ok_elim st ctx st' h
  exact inv_insert st ctx.source hc hInv

/-- `register_addr` preserves the invariant. -/
theorem register_addr_preserves_inv (a : Addr) (st : State) (ctx : Ctx)
    (st' : State) (hInv : Inv st) (h : register_addr a st ctx = .ok st') :
    Inv st' := by
  obtain ⟨hc, rfl⟩ := register_addr_ok_elim a st ctx st' h
  exact inv_insert st a hc hInv

/-- Any sequence of successful mutating calls preserves the invariant. -/
theorem runOps_preserves_inv (ops : List Op) (st st' : State)
    (hInv : Inv st) (h : runOps st ops = .ok st') : Inv st' := by
  induction ops generalizing st with
  | nil =>
    rw [runOps] at h
    injection h with h
    exact h ▸ hInv
  | cons op ops ih =>
    rw [runOps] at h
    cases hstep : runOp st op with
    | error e => rw [hstep] at h; exact absurd h (by simp)
    | ok st1 =>
      rw [hstep] at h
      have hInv1 : Inv st1 := by
        cases op with
        | reg ctx => exact register_preserves_inv st ctx st1 hInv hstep
        | regAddr a ctx => exact register_addr_preserves_inv a st ctx st1 hInv hstep
      exact ih st1 hInv1 h

/-- Later successful registrations never disturb an existing binding of
`addr2id`: each one only inserts a key that was absent. -/
theorem registerList_preserves_get (as : List Addr) (st stf : State)
    (ctx : Ctx) (h : registerList ctx st as = .ok stf) (x : Addr) (v : Nat)
    (hx : BigMap.get st.addr2id x = some v) :
    BigMap.get stf.addr2id x = some v := by
  induction as generalizing st with
  | nil =>
    rw [registerList] at h
    injection h with h
    exact h ▸ hx
  | cons a as ih =>
    rw [registerList] at h
    cases hr : register_addr a st ctx with
    | error e => rw [hr] at h; exact absurd h (by simp)
    | ok st1 =>
      rw [hr] at h
      obtain ⟨hc, rfl⟩ := register_addr_ok_elim a st ctx st1 hr
      have hxa : x ≠ a := by
        intro hxa
        subst hxa
        rw [(BigMap.contains_eq_false_iff _ _).mp hc] at hx
        exact absurd hx (by simp)
      refine ih _ h ?_
      dsimp only
      rw [BigMap.get_set_ne _ _ _ _ hxa]
      exact hx

/-- Registering a list of pairwise-distinct fresh addresses succeeds and
assigns the consecutive ids `counter, counter+1, …` in order. -/
theorem registerList_ok (as : List Addr) (st : State) (ctx : Ctx)
    (hnd : as.Nodup)
    (hfresh : ∀ a ∈ as, st.addr2id.contains a = false) :
    ∃ stf, registerList ctx st as = .ok stf ∧
      stf.counter = st.counter + as.length ∧
      ∀ k : Fin as.length,
        BigMap.get stf.addr2id (as.get k) = some (st.counter + k.1) := by
  induction as generalizing st with
  | nil =>
    refine ⟨st, rfl, by simp, ?_⟩
    intro k
    exact absurd k.2 (by simp)
  | cons a as ih =>
    obtain ⟨ha, hnd'⟩ := List.nodup_cons.mp hnd
    have hfa : st.addr2id.contains a = false := hfresh a (by simp)
    have hstep : register_addr a st ctx = .ok
        { addr2id := st.addr2id.set a st.counter
          id2addr := st.id2addr.set st.counter a
          counter := st.counter + 1 } := by
      unfold register_addr
      rw [hfa]
      simp
    have hfresh1 : ∀ b ∈ as,
        BigMap.contains (st.addr2id.set a st.counter) b = false := by
      intro b hb
      have hba : b ≠ a := fun hba => ha (hba ▸ hb)
      rw [BigMap.contains_set_ne _ _ _ _ hba]
      exact hfresh b (List.mem_cons_of_mem a hb)
    obtain ⟨stf, hrun, hcnt, hids⟩ :=
      ih { addr2id := st.addr2id.set a st.counter
           id2addr := st.id2addr.set st.counter a
           counter := st.counter + 1 } hnd' hfresh1
    refine ⟨stf, ?_, ?_, ?_⟩
    · rw [registerList, hstep]
      exact hrun
    · dsimp only at hcnt
      rw [hcnt]
      simp only [List.length_cons]
      omega
    · intro k
      rcases k with ⟨j, hj⟩
      cases j with
      | zero =>
        have h0 : BigMap.get
            (BigMap.set st.addr2id a st.counter) a = some st.counter :=
          BigMap.get_set_self _ _ _
        have := registerList_preserves_get as _ stf ctx hrun a st.counter h0
        simpa using this
      | succ j =>
        have hj' : j < as.length := by simpa using hj
        have := hids ⟨j, hj'⟩
        dsimp only at this
        rw [show st.counter + 1 + j = st.counter + (j + 1) by omega] at this
        simpa using this

/-- A state used by C1 and C9: the bijection holds, but `counter` (5) is
already a key of `id2addr`, so the counter bound fails. -/
def edgeInit : State :=
  { addr2id := ⟨[("b", 5)]⟩, id2addr := ⟨[(5, "b")]⟩, counter := 5 }

/-- A context for calls on `edgeInit`. -/
def edgeCtx : Ctx := { sender := "c", source := "c" }

/-- The state `register_addr "a"` produces from `edgeInit`: the binding of
id 5 in `id2addr` has been overwritten. -/
def edgeNext : State :=
  { addr2id := ⟨[("a", 5), ("b", 5)]⟩
    id2addr := ⟨[(5, "a"), (5, "b")]⟩
    counter := 6 }

/-- The Registry with no entries and counter 0. -/
def emptyState : State := { addr2id := ⟨[]⟩, id2addr := ⟨[]⟩, counter := 0 }

/-- `edgeInit` satisfies the bijection. -/
theorem edgeInit_bijection : bijection edgeInit := by
  intro a i
  simp only [edgeInit, BigMap.get, lookupList]
  by_cases hab : a = "b"
  · subst hab
    by_cases hi5 : i = 5
    · subst hi5; simp
    · simp [hi5, Ne.symm hi5]
  · by_cases hi5 : i = 5
    · subst hi5; simp [hab, Ne.symm hab]
    · simp [hab, hi5]

/-- C1 counterexample: the claim quantifies over every initial state that
satisfies the bijection alone. `edgeInit` satisfies the bijection, yet one
successful `register_addr` call yields a state where `addr2id["b"] = 5` but
`id2addr[5] = "a"`: the bijection is not preserved from such a start. -/
theorem C1_counterexample :
    bijection edgeInit ∧
    register_addr "a" edgeInit edgeCtx = .ok edgeNext ∧
    ¬ bijection edgeNext := by
  refine ⟨edgeInit_bijection, by decide, ?_⟩
  intro h
  have hb := (h "b" 5).mp (by decide)
  exact absurd hb (by decide)

/-- C1 (amended): for every state reachable by any sequence of successful
`register()` / `register_addr()` calls from an initial state satisfying the
bijection together with the counter bound (every id key of `id2addr` is
below `counter`), the bijection — and the counter bound — still hold. -/
theorem C1_bijection_invariant (ops : List Op) (st st' : State)
    (hInv : Inv st) (h : runOps st ops = .ok st') :
    bijection st' ∧ idBound st' :=
  runOps_preserves_inv ops st st' hInv h

/-- C1 witness: running one registration from the empty Registry. -/
theorem C1_bijection_invariant_witness :
    bijection { addr2id := ⟨[("x", 0)]⟩, id2addr := ⟨[(0, "x")]⟩, counter := 1 } ∧
    idBound { addr2id := ⟨[("x", 0)]⟩, id2addr := ⟨[(0, "x")]⟩, counter := 1 } :=
  C1_bijection_invariant [Op.regAddr "x" ⟨"s", "s"⟩] emptyState _
    ⟨fun a i => by simp [emptyState, BigMap.get, lookupList],
     fun i h => by simp [emptyState, BigMap.contains, BigMap.get, lookupList] at h⟩
    rfl

/-- C2: `register()` fails with `REREG` exactly when the transaction
originator (`sp.source`, not the immediate caller) is already a key of
`addr2id`; when it is not, the call returns the state with
`addr2id[source] = counter`, `id2addr[counter] = source` and the counter
incremented by one. A failing call produces no state (the runtime keeps the
pre-state). -/
theorem C2_register_spec (st : State) (ctx : Ctx) :
    (register st ctx = .error .REREG ↔
      st.addr2id.contains ctx.source = true) ∧
    (st.addr2id.contains ctx.source = false →
      register st ctx = .ok
        { addr2id := st.addr2id.set ctx.source st.counter
          id2addr := st.id2addr.set st.counter ctx.source
          counter := st.counter + 1 }) := by
  constructor
  · by_cases hc : st.addr2id.contains ctx.source
    · simp [register, hc]
    · simp [register, hc]
  · intro h
    simp [register, h]

/-- C2 witness: registering a fresh originator on the seed state. -/
theorem C2_register_spec_witness :
    register seedState ⟨"x", "x"⟩ = .ok
      { addr2id := ⟨[("x", 2), (nulladdr, 0), (burnaddr, 1)]⟩
        id2addr := ⟨[(2, "x"), (0, nulladdr), (1, burnaddr)]⟩
        counter := 3 } :=
  (C2_register_spec seedState ⟨"x", "x"⟩).2 (by decide)

/-- C3: registering `n` pairwise-distinct fresh addresses from counter `c₀`
always succeeds, leaves `get_counter` at `c₀ + n`, assigns precisely the ids
`c₀, …, c₀+n-1` in order (each to exactly one address), and every single
successful registration increments the counter by exactly one, so the
counter never decreases. -/
theorem C3_monotonic_counter (as : List Addr) (st : State) (ctx : Ctx)
    (hnd : as.Nodup)
    (hfresh : ∀ a ∈ as, st.addr2id.contains a = false) :
    (∃ stf, registerList ctx st as = .ok stf) ∧
    (∀ stf, registerList ctx st as = .ok stf →
       view_get_counter stf = view_get_counter st + as.length ∧
       ∀ k : Fin as.length,
         BigMap.get stf.addr2id (as.get k) = some (st.counter + k.1)) ∧
    (∀ (st₀ : State) (ctx₀ : Ctx) (a : Addr) (st₁ : State),
       register_addr a st₀ ctx₀ = .ok st₁ →
       st₁.counter = st₀.counter + 1) := by
  obtain ⟨stf, hrun, hcnt, hids⟩ := registerList_ok as st ctx hnd hfresh
  refine ⟨⟨stf, hrun⟩, ?_, ?_⟩
  · intro stf' h'
    rw [hrun] at h'
    injection h' with h'
    subst h'
    exact ⟨hcnt, hids⟩
  · intro st₀ ctx₀ a st₁ h₁
    obtain ⟨_, rfl⟩ := register_addr_ok_elim a st₀ ctx₀ st₁ h₁
    rfl

/-- C3 witness: two fresh registrations on the seed state take the counter
from 2 to 4. -/
theorem C3_monotonic_counter_witness :
    view_get_counter
      { addr2id := ⟨[("y", 3), ("x", 2), (nulladdr, 0), (burnaddr, 1)]⟩
        id2addr := ⟨[(3, "y"), (2, "x"), (0, nulladdr), (1, burnaddr)]⟩
        counter := 4 } = view_get_counter seedState + 2 := by
  have h := C3_monotonic_counter ["x", "y"] seedState ⟨"s", "s"⟩
    (by decide) (by decide)
  exact (h.2.1 _ (by decide)).1

/-- The context of C4: the transaction originator is `burnaddr`. -/
def c4Ctx : Ctx := { sender := nulladdr, source := burnaddr }

/-- C4 counterexample: on an id absent from `id2addr` (id 10 in the seed
state), `chk_idEqSource` aborts through the missing-key subscript failure,
not with the `ID_NEQ_SOURCE` verify message the claim states. -/
theorem C4_counterexample :
    BigMap.contains seedState.id2addr 10 = false ∧
    view_verify_id_equ_source 10 seedState c4Ctx = .error .MissingKey ∧
    Err.MissingKey ≠ Err.ID_NEQ_SOURCE := by
  refine ⟨by decide, by decide, by decide⟩

/-- C4 (amended): `chk_idEqSource(id)` fails with the runtime missing-key
failure (not `ID_NEQ_SOURCE`) when `id2addr[id]` is undefined, fails with
`ID_NEQ_SOURCE` when `id2addr[id]` is defined but differs from the
transaction originator, and succeeds with no return value exactly when
`id2addr[id]` equals the originator's address. -/
theorem C4_chk_idEqSource_spec (id : Nat) (st : State) (ctx : Ctx) :
    (st.id2addr.get id = none →
      view_verify_id_equ_source id st ctx = .error .MissingKey) ∧
    (∀ a, st.id2addr.get id = some a → a ≠ ctx.source →
      view_verify_id_equ_source id st ctx = .error .ID_NEQ_SOURCE) ∧
    (view_verify_id_equ_source id st ctx = .ok () ↔
      st.id2addr.get id = some ctx.source) := by
  refine ⟨?_, ?_, ?_⟩
  · intro h; simp [view_verify_id_equ_source, h]
  · intro a h hne; simp [view_verify_id_equ_source, h, hne]
  · cases hg : st.id2addr.get id with
    | none => simp [view_verify_id_equ_source, hg]
    | some a =>
      by_cases ha : a = ctx.source
      · subst ha; simp [view_verify_id_equ_source, hg]
      · simp [view_verify_id_equ_source, hg, ha]

/-- C4 witness: id 1 belongs to `burnaddr`, the originator of `c4Ctx`. -/
theorem C4_chk_idEqSource_spec_witness :
    view_verify_id_equ_source 1 seedState c4Ctx = .ok () :=
  (C4_chk_idEqSource_spec 1 seedState c4Ctx).2.2.mpr (by decide)

/-- C5: `chk_idEqAddr(id, addr)` fails with `ID_UNKNOWN` when the id is not
a key of `id2addr`, fails with `ID_NEQ_ADDR` when the id's address differs
from the supplied one, succeeds otherwise; and on the seed state,
`(10, burnaddr)` gives `ID_UNKNOWN` while `(1, nulladdr)` gives
`ID_NEQ_ADDR`. -/
theorem C5_chk_idEqAddr_spec (id : Nat) (addr : Addr) (st : State) :
    (st.id2addr.contains id = false →
      view_verify_id_equ_addr id addr st = .error .ID_UNKNOWN) ∧
    (∀ a, st.id2addr.get id = some a → a ≠ addr →
      view_verify_id_equ_addr id addr st = .error .ID_NEQ_ADDR) ∧
    (st.id2addr.get id = some addr →
      view_verify_id_equ_addr id addr st = .ok ()) ∧
    view_verify_id_equ_addr 10 burnaddr seedState = .error .ID_UNKNOWN ∧
    view_verify_id_equ_addr 1 nulladdr seedState = .error .ID_NEQ_ADDR := by
  refine ⟨?_, ?_, ?_, by decide, by decide⟩
  · intro h; simp [view_verify_id_equ_addr, h]
  · intro a h hne
    have hc : st.id2addr.contains id = true := BigMap.contains_of_get _ _ _ h
    simp [view_verify_id_equ_addr, hc, h, hne]
  · intro h
    have hc : st.id2addr.contains id = true := BigMap.contains_of_get _ _ _ h
    simp [view_verify_id_equ_addr, hc, h]

/-- C5 witness: id 0 is bound to `nulladdr` in the seed state. -/
theorem C5_chk_idEqAddr_spec_witness :
    view_verify_id_equ_addr 0 nulladdr seedState = .ok () :=
  (C5_chk_idEqAddr_spec 0 nulladdr seedState).2.2.1 (by decide)

/-- C6: for every state, `register_addr a` — from any call context — is the
same transition, with the same success or failure, as `register` invoked by
a transaction whose originator is `a`. -/
theorem C6_register_addr_equiv (st : State) (ctx ctx' : Ctx) (a : Addr)
    (h : ctx.source = a) : register st ctx = register_addr a st ctx' := by
  subst h
  rfl

/-- C6 witness: a concrete instance of the equivalence on the seed state. -/
theorem C6_register_addr_equiv_witness :
    register seedState ⟨"s", "x"⟩ = register_addr "x" seedState ⟨"q", "r"⟩ :=
  C6_register_addr_equiv seedState ⟨"s", "x"⟩ ⟨"q", "r"⟩ "x" rfl

/-- C7: `addr2id` fails with `UNKNOWN` exactly on unregistered addresses
and otherwise returns the stored id; `id2addr` fails with `UNKNOWN` exactly
on unregistered ids and otherwise returns the stored address; `has_addr`
never fails and is true exactly on registered addresses. All three are
functions of the state only — an on-chain view cannot write storage. -/
theorem C7_lookup_views_spec (st : State) (a : Addr) (i : Nat) :
    (view_addr2id a st = .error .UNKNOWN ↔
      st.addr2id.contains a = false) ∧
    (∀ n, st.addr2id.get a = some n → view_addr2id a st = .ok n) ∧
    (view_id2addr i st = .error .UNKNOWN ↔
      st.id2addr.contains i = false) ∧
    (∀ x, st.id2addr.get i = some x → view_id2addr i st = .ok x) ∧
    (view_has_addr a st = true ↔ st.addr2id.contains a = true) := by
  refine ⟨?_, ?_, ?_, ?_, Iff.rfl⟩
  · cases hc : st.addr2id.contains a with
    | false => simp [view_addr2id, hc]
    | true =>
      obtain ⟨n, hn⟩ := BigMap.get_of_contains _ _ hc
      simp [view_addr2id, hc, hn]
  · intro n hn
    simp [view_addr2id, BigMap.contains_of_get _ _ _ hn, hn]
  · cases hc : st.id2addr.contains i with
    | false => simp [view_id2addr, hc]
    | true =>
      obtain ⟨x, hx⟩ := BigMap.get_of_contains _ _ hc
      simp [view_id2addr, hc, hx]
  · intro x hx
    simp [view_id2addr, BigMap.contains_of_get _ _ _ hx, hx]

/-- C7 witness: `burnaddr` resolves to id 1 on the seed state. -/
theorem C7_lookup_views_spec_witness :
    view_addr2id burnaddr seedState = .ok 1 :=
  (C7_lookup_views_spec seedState burnaddr 0).2.1 1 (by decide)

/-- A state and context that separate the immediate caller from the
originator: the sender `"s"` is registered, the originator `"z"` is not. -/
def c8St : State :=
  { addr2id := ⟨[("s", 0)]⟩, id2addr := ⟨[(0, "s")]⟩, counter := 1 }

/-- Context for C8: sender `"s"`, originator `"z"`. -/
def c8Ctx : Ctx := { sender := "s", source := "z" }

/-- C8 counterexample: with the sender registered and the originator not,
no view of the Registry's surface, called without a parameter, reports the
sender's membership (in particular `has_source` reports `false`, because it
tests the originator): the claimed sender-testing convenience view does not
exist — `has_source` is the only convenience boolean view. -/
theorem C8_counterexample :
    c8St.addr2id.contains c8Ctx.sender = true ∧
    view_has_source c8St c8Ctx = false ∧
    callView .has_addr c8St c8Ctx .unit ≠ .ok (.bool true) ∧
    callView .has_source c8St c8Ctx .unit ≠ .ok (.bool true) ∧
    callView .chk_idEqSource c8St c8Ctx .unit ≠ .ok (.bool true) ∧
    callView .chk_idEqAddr c8St c8Ctx .unit ≠ .ok (.bool true) ∧
    callView .get_counter c8St c8Ctx .unit ≠ .ok (.bool true) ∧
    callView .addr2id c8St c8Ctx .unit ≠ .ok (.bool true) ∧
    callView .id2addr c8St c8Ctx .unit ≠ .ok (.bool true) := by
  decide

/-- C8 (amended): the Registry exposes exactly one convenience boolean
view, `has_source`, and it reports whether the transaction originator
(`sp.source`) is a registered key; no view callable without a parameter
returns any other boolean. -/
theorem C8_has_source_spec (st : State) (ctx : Ctx) :
    callView .has_source st ctx .unit =
      .ok (.bool (st.addr2id.contains ctx.source)) ∧
    (∀ (v : ViewName) (b : Bool),
      callView v st ctx .unit = .ok (.bool b) →
        v = .has_source ∧ b = st.addr2id.contains ctx.source) := by
  constructor
  · rfl
  · intro v b h
    cases v <;> simp [callView, view_has_source, view_get_counter] at h
    exact ⟨rfl, by simp [h]⟩

/-- C8 witness: on the seed state with originator `nulladdr`, `has_source`
answers true. -/
theorem C8_has_source_spec_witness :
    ViewName.has_source = ViewName.has_source ∧
    true = seedState.addr2id.contains nulladdr :=
  (C8_has_source_spec seedState ⟨"a", nulladdr⟩).2 .has_source true (by decide)

/-- C9: the registration guard tests only `addr2id`. From `edgeInit`
(counter 5 already a key of `id2addr`), registering the fresh address
`"a"` succeeds and silently overwrites `id2addr[5]`; and for both
entrypoints, whenever `counter` is *not* a key of `id2addr`, a successful
registration leaves every existing binding of `id2addr` intact (the
write-once property for id keys). -/
theorem C9_register_guard_edge :
    (edgeInit.addr2id.contains "a" = false ∧
     edgeInit.id2addr.contains edgeInit.counter = true ∧
     register_addr "a" edgeInit edgeCtx = .ok edgeNext ∧
     edgeInit.id2addr.get 5 = some "b" ∧
     edgeNext.id2addr.get 5 = some "a") ∧
    (∀ (st : State) (ctx : Ctx) (a : Addr) (st' : State),
       st.id2addr.contains st.counter = false →
       register_addr a st ctx = .ok st' →
       ∀ (i : Nat) (v : Addr), st.id2addr.get i = some v →
         st'.id2addr.get i = some v) ∧
    (∀ (st : State) (ctx : Ctx) (st' : State),
       st.id2addr.contains st.counter = false →
       register st ctx = .ok st' →
       ∀ (i : Nat) (v : Addr), st.id2addr.get i = some v →
         st'.id2addr.get i = some v) := by
  refine ⟨by decide, ?_, ?_⟩
  · intro st ctx a st' hfree h i v hv
    obtain ⟨hc, rfl⟩ := register_addr_ok_elim a st ctx st' h
    dsimp only
    have hic : i ≠ st.counter := by
      intro hic
      subst hic
      rw [(BigMap.contains_eq_false_iff _ _).mp hfree] at hv
      exact absurd hv (by simp)
    rw [BigMap.get_set_ne _ _ _ _ hic]
    exact hv
  · intro st ctx st' hfree h i v hv
    obtain ⟨hc, rfl⟩ := register_ok_elim st ctx st' h
    dsimp only
    have hic : i ≠ st.counter := by
      intro hic
      subst hic
      rw [(BigMap.contains_eq_false_iff _ _).mp hfree] at hv
      exact absurd hv (by simp)
    rw [BigMap.get_set_ne _ _ _ _ hic]
    exact hv

/-- C9 witness: on the seed state (where the counter bound holds), the
binding of id 0 survives a registration. -/
theorem C9_register_guard_edge_witness :
    BigMap.get
      { addr2id := ⟨[("x", 2), (nulladdr, 0), (burnaddr, 1)]⟩
        id2addr := ⟨[(2, "x"), (0, nulladdr), (1, burnaddr)]⟩
        counter := 3 : State }.id2addr 0 = some nulladdr :=
  C9_register_guard_edge.2.2 seedState ⟨"x", "x"⟩ _
    (by decide) (by decide) 0 nulladdr (by decide)

/-- C10: a successful `lui_store_aaa(i, id)` leaves the Registry state, the
Consumer's `id_reg` reference and the whole `id_nnn` map untouched, writes
the address the `id2addr` view returned into all three fields of
`id_aaa[i]`, and changes no other index of `id_aaa`; symmetrically, a
successful `lua_store_nnn(i, addr)` only rewrites `id_nnn[i]` with the id
the `addr2id` view returned, in all three fields. -/
theorem C10_consumer_frame (i id : Nat) (addr : Addr)
    (reg reg₁ reg₂ : State) (cst cst₁ cst₂ : ConsumerState) (ctx : Ctx) :
    (lui_store_aaa i id reg cst ctx = .ok (reg₁, cst₁) →
       reg₁ = reg ∧ cst₁.id_reg = cst.id_reg ∧ cst₁.id_nnn = cst.id_nnn ∧
       (∃ a, view_id2addr id reg = .ok a ∧
          cst₁.id_aaa.get i = some ⟨a, a, a⟩) ∧
       (∀ j, j ≠ i → cst₁.id_aaa.get j = cst.id_aaa.get j)) ∧
    (lua_store_nnn i addr reg cst ctx = .ok (reg₂, cst₂) →
       reg₂ = reg ∧ cst₂.id_reg = cst.id_reg ∧ cst₂.id_aaa = cst.id_aaa ∧
       (∃ n, view_addr2id addr reg = .ok n ∧
          cst₂.id_nnn.get i = some ⟨n, n, n⟩) ∧
       (∀ j, j ≠ i → cst₂.id_nnn.get j = cst.id_nnn.get j)) := by
  constructor
  · intro h
    unfold lui_store_aaa at h
    rw [show callView .id2addr reg ctx (.nat id) =
        (view_id2addr id reg).map Ret.addr from rfl] at h
    cases hv : view_id2addr id reg with
    | error e =>
      rw [hv] at h
      simp [Except.map] at h
    | ok a =>
      rw [hv] at h
      simp only [Except.map] at h
      injection h with h
      rw [Prod.mk.injEq] at h
      obtain ⟨hreg, hcst⟩ := h
      subst hreg
      subst hcst
      refine ⟨rfl, rfl, rfl, ⟨a, rfl, BigMap.get_set_self _ _ _⟩, ?_⟩
      intro j hj
      exact BigMap.get_set_ne _ _ _ _ hj
  · intro h
    unfold lua_store_nnn at h
    rw [show callView .addr2id reg ctx (.addr addr) =
        (view_addr2id addr reg).map Ret.nat from rfl] at h
    cases hv : view_addr2id addr reg with
    | error e =>
      rw [hv] at h
      simp [Except.map] at h
    | ok n =>
      rw [hv] at h
      simp only [Except.map] at h
      injection h with h
      rw [Prod.mk.injEq] at h
      obtain ⟨hreg, hcst⟩ := h
      subst hreg
      subst hcst
      refine ⟨rfl, rfl, rfl, ⟨n, rfl, BigMap.get_set_self _ _ _⟩, ?_⟩
      intro j hj
      exact BigMap.get_set_ne _ _ _ _ hj

/-- The Registry address the test scenario wires into the Consumer. -/
def consumerReg : Addr := "KT1BvfKk7H6ecPwc1fvF5FZyJh87ZRrEa91M"

/-- A Consumer with empty local maps. -/
def consumer0 : ConsumerState :=
  { id_aaa := ⟨[]⟩, id_nnn := ⟨[]⟩, id_reg := consumerReg }

/-- The Consumer after `lui_store_aaa 3 0` against the seed Registry. -/
def consumer1 : ConsumerState :=
  { id_aaa := ⟨[(3, ⟨nulladdr, nulladdr, nulladdr⟩)]⟩
    id_nnn := ⟨[]⟩
    id_reg := consumerReg }

/-- C10 witness: the scenario's `lui_store_aaa(i=3, id=0)` call leaves
`id_reg` and `id_nnn` unchanged. -/
theorem C10_consumer_frame_witness :
    consumer1.id_reg = consumer0.id_reg ∧
    consumer1.id_nnn = consumer0.id_nnn := by
  have h := (C10_consumer_frame 3 0 nulladdr seedState seedState seedState
      consumer0 consumer1 consumer1 ⟨"a", "a"⟩).1 (by decide)
  exact ⟨h.2.1, h.2.2.1⟩

end AddressLookup
